import Mathlib

/-!
Shallow embedding of the session-lifecycle subsystem of the repository:
the relational adapter in `backend/go/database/sql/session.go` (operating on
the `sessions` table declared in `up.sql`) together with the reaper loop of
`main`. Timestamps and durations are modelled as integers (seconds); the
store is a list of rows plus the next SERIAL value; backend availability and
per-call failures of the SQL driver are explicit boolean parameters, so that
the error paths of the Go code are part of the model.
-/

namespace SessionStore

/-- One row of the `sessions` table from `up.sql`:
`id SERIAL PRIMARY KEY, encryptedcreds BYTEA, expiration, endoflife`. -/
structure Row where
  id : Int
  encryptedcreds : List Nat
  expiration : Int
  endoflife : Int
deriving DecidableEq, Repr

/-- The Go struct `database.Session` as used by `session.go`:
fields ID, EncryptedCreds, Expires, EndOfLife. -/
structure Session where
  ID : Int
  EncryptedCreds : List Nat
  Expires : Int
  EndOfLife : Int
deriving DecidableEq, Repr

/-- The Go zero value `database.Session\x7b\x7d`. -/
def Session.zero : Session := ⟨0, [], 0, 0⟩

/-- State of the `sessions` table: current rows plus the next value of the
SERIAL `id` column. -/
structure DBState where
  rows : List Row
  nextId : Int
deriving DecidableEq, Repr

/-- Backend-native errors of the SQL driver: `sql.ErrNoRows` or any
connection/write failure. -/
inductive DbErr where
  | noRows
  | connFailure
deriving DecidableEq, Repr

/-- Error values that the adapter's methods return to callers:
`database.ErrNotFound`, or a backend error passed through raw (the Port's
StorageUnavailable kind). -/
inductive GoErr where
  | errNotFound
  | backend (e : DbErr)
deriving DecidableEq, Repr

/-- `time.Minute` in the model's units (seconds). -/
def timeMinute : Int := 60

/-- SaveSession (session.go lines 9-16): `INSERT INTO sessions(...) RETURNING
id`, then `Scan(&in.ID)`. On success a fresh row is appended with the SERIAL
id, and the input session is returned with its ID field overwritten by that
id. `avail` models whether the backend call succeeds; on failure the raw
backend error is returned and nothing changes. -/
def SaveSession (avail : Bool) (s : DBState) (sess : Session) :
    DBState × Session × Option GoErr :=
  if avail then
    ({ rows := s.rows ++ [⟨s.nextId, sess.EncryptedCreds, sess.Expires, sess.EndOfLife⟩],
       nextId := s.nextId + 1 },
     { sess with ID := s.nextId }, none)
  else (s, sess, some (GoErr.backend DbErr.connFailure))

/-- LoadSession (session.go lines 19-41): `SELECT * FROM sessions WHERE id =
$1`, scanning id, encryptedcreds, expiration, endoflife. Any error from the
query - a missing row or a backend failure (`avail = false`) - makes the Go
code return the zero session together with `database.ErrNotFound`. -/
def LoadSession (avail : Bool) (s : DBState) (id : Int) : Session × Option GoErr :=
  if avail then
    match s.rows.find? (fun r => r.id == id) with
    | some r => (⟨r.id, r.encryptedcreds, r.expiration, r.endoflife⟩, none)
    | none => (Session.zero, some GoErr.errNotFound)
  else (Session.zero, some GoErr.errNotFound)

/-- LogoutSession (session.go lines 44-48): `DELETE FROM sessions WHERE id =
$1`, discarding the result, returning only the Exec error. -/
def LogoutSession (avail : Bool) (s : DBState) (id : Int) : DBState × Option GoErr :=
  if avail then
    ({ s with rows := s.rows.filter (fun r => !(r.id == id)) }, none)
  else (s, some (GoErr.backend DbErr.connFailure))

/-- ExtendSession (session.go lines 52-60): `UPDATE sessions SET expiration =
$1 WHERE id = $2` with `time.Now().Add(lifespan)` as the new expiration;
`now` is the clock reading at the moment the operation executes. -/
def ExtendSession (avail : Bool) (now : Int) (s : DBState) (id lifespan : Int) :
    DBState × Option GoErr :=
  if avail then
    let upd := fun (r : Row) =>
      if r.id == id then { r with expiration := now + lifespan } else r
    ({ s with rows := s.rows.map upd }, none)
  else (s, some (GoErr.backend DbErr.connFailure))

/-- The SQL predicate of the sweep's DELETE: `expiration < current_timestamp
OR endoflife < current_timestamp`. -/
def reclaimRow (now : Int) (r : Row) : Bool :=
  decide (r.expiration < now) || decide (r.endoflife < now)

/-- ClearExpiredSessions (session.go lines 64-72): bulk `DELETE FROM sessions
WHERE expiration < current_timestamp OR endoflife < current_timestamp`.
`execFails` models a failing Exec: the Go code then does `return 0, nil`,
swallowing the error. `raFails` models a failing `RowsAffected()` call, whose
error IS returned (`return int(ra), err`). -/
def ClearExpiredSessions (execFails raFails : Bool) (now : Int) (s : DBState) :
    DBState × Nat × Option GoErr :=
  if execFails then (s, 0, none)
  else
    let kept := s.rows.filter (fun r => !(reclaimRow now r))
    if raFails then
      ({ s with rows := kept }, 0, some (GoErr.backend DbErr.connFailure))
    else
      ({ s with rows := kept }, (s.rows.filter (reclaimRow now ·)).length, none)

/-- Log events emitted by the reaper goroutine in `main`: the ERROR line on a
failed sweep, the INFO line (with the count) on a successful one. -/
inductive LogEvent where
  | sweepError
  | sweepInfo (count : Nat)
deriving DecidableEq, Repr

/-- State threaded through the reaper loop: wall clock, the shared store, and
the log output so far. -/
structure ReaperState where
  time : Int
  db : DBState
  logs : List LogEvent
deriving DecidableEq, Repr

/-- The sweep interval of the reaper goroutine: `time.Minute * 10`. -/
def sweepInterval : Int := timeMinute * 10

/-- One iteration of the reaper loop in `main` (part_000 lines 50-65):
`time.Sleep(time.Minute * 10)`, then `ClearExpiredSessions`; on error log the
ERROR line and `continue`, otherwise log the INFO line with the count.
`failSched n` gives the (execFails, raFails) outcome of cycle `n`. -/
def reaperStep (failSched : Nat → Bool × Bool) (n : Nat) (st : ReaperState) : ReaperState :=
  let t := st.time + sweepInterval
  let out := ClearExpiredSessions (failSched n).1 (failSched n).2 t st.db
  match out.2.2 with
  | some _ => { time := t, db := out.1, logs := st.logs ++ [LogEvent.sweepError] }
  | none => { time := t, db := out.1, logs := st.logs ++ [LogEvent.sweepInfo out.2.1] }

/-- The reaper loop after `n` iterations: the open-ended `for` loop of the
goroutine, unrolled. -/
def reaperRun (failSched : Nat → Bool × Bool) (st : ReaperState) : Nat → ReaperState
  | 0 => st
  | n + 1 => reaperStep failSched n (reaperRun failSched st n)

/-- A well-formed store: every existing row's id is below the next SERIAL
value (what PostgreSQL's SERIAL guarantees). -/
def WF (s : DBState) : Prop := ∀ r ∈ s.rows, r.id < s.nextId

/-- Sample row used by concrete witnesses. -/
def dRow : Row := ⟨0, [], 0, 0⟩

end SessionStore

namespace SessionStore

/-- Helper: a row both of whose clocks lie strictly after every sweep time in
`times` survives the whole sequence of sweeps. -/
theorem sweep_preserves_live (r : Row) :
    ∀ (times : List Int) (s : DBState), r ∈ s.rows →
      (∀ t ∈ times, t < r.expiration ∧ t < r.endoflife) →
      r ∈ (times.foldl (fun st t => (ClearExpiredSessions false false t st).1) s).rows := by
  intro times
  induction times with
  | nil => intro s hs _; simpa using hs
  | cons t ts ih =>
    intro s hs hall
    simp only [List.foldl_cons]
    apply ih
    · have h1 := (hall t (by simp)).1
      have h2 := (hall t (by simp)).2
      simp [ClearExpiredSessions, List.mem_filter, hs, reclaimRow]
      omega
    · intro u hu
      exact hall u (by simp [hu])

/-- Claim C1, counterexample: a session whose `expiresAt` equals the sweep
time exactly (now = expiresAt = 5, endOfLife = 10) is NOT removed by the
sweep, although `now >= expiresAt` holds, so removal is not equivalent to
`now >= expiresAt OR now >= endOfLife`. -/
theorem C1_counterexample :
    ¬ (∀ r ∈ (⟨[⟨1, [], 5, 10⟩], 2⟩ : DBState).rows,
        (r ∉ (ClearExpiredSessions false false 5 ⟨[⟨1, [], 5, 10⟩], 2⟩).1.rows ↔
          ((5 : Int) ≥ r.expiration ∨ (5 : Int) ≥ r.endoflife))) := by
  decide

/-- Claim C1, amended: a successful sweep removes a stored session if and
only if, at sweep time, `now > expiresAt OR now > endOfLife` (strict
comparisons, from the SQL `<` predicate); a session both of whose clocks are
strictly in the future survives any number of sweeps. -/
theorem C1_sweep_removes_iff_strictly_past (now : Int) (s : DBState) (r : Row)
    (h : r ∈ s.rows) :
    (r ∉ (ClearExpiredSessions false false now s).1.rows ↔
        (r.expiration < now ∨ r.endoflife < now)) ∧
      (∀ times : List Int, (∀ t ∈ times, t < r.expiration ∧ t < r.endoflife) →
        r ∈ (times.foldl (fun st t => (ClearExpiredSessions false false t st).1) s).rows) := by
  constructor
  · simp [ClearExpiredSessions, List.mem_filter, h, reclaimRow]
    omega
  · intro times hall
    exact sweep_preserves_live r times s h hall

/-- Claim C1, witness for the amended theorem at a concrete input: the row
with expiration 5 and endoflife 10 is removed by a sweep at time 7. -/
theorem C1_witness :
    (⟨1, [], 5, 10⟩ : Row) ∈ (⟨[⟨1, [], 5, 10⟩], 2⟩ : DBState).rows ∧
      ((⟨1, [], 5, 10⟩ : Row) ∉
          (ClearExpiredSessions false false 7 ⟨[⟨1, [], 5, 10⟩], 2⟩).1.rows ↔
        ((5 : Int) < 7 ∨ (10 : Int) < 7)) :=
  ⟨by decide, (C1_sweep_removes_iff_strictly_past 7 _ _ (by decide)).1⟩

/-- Claim C2, code bug: when the bulk DELETE of the sweep fails, the code
executes `return 0, nil`, so the caller sees a successful sweep that removed
zero sessions and no error at all - here on a store still holding a session
that is long past both clocks. -/
theorem C2_sweep_failure_swallowed :
    ClearExpiredSessions true false 100 ⟨[⟨1, [], 5, 20⟩], 2⟩ =
      (⟨[⟨1, [], 5, 20⟩], 2⟩, 0, none) := rfl

/-- Claim C3, counterexample: with the backend unreachable, LoadSession on an
id that DOES have a matching row still returns `database.ErrNotFound` - the
backend failure is reported as NotFound, not as a StorageUnavailable kind,
and NotFound is returned although a row matches. -/
theorem C3_counterexample :
    ¬ ((LoadSession false ⟨[⟨1, [], 5, 20⟩], 2⟩ 1).2 = some GoErr.errNotFound ↔
        (∀ r ∈ (⟨[⟨1, [], 5, 20⟩], 2⟩ : DBState).rows, ¬ r.id = 1)) := by
  decide

/-- Claim C3, amended: LoadSession maps EVERY failure - a missing row as well
as any backend error - to `database.ErrNotFound`; it never returns a raw
backend (StorageUnavailable) error, and it succeeds exactly when the backend
is reachable and a row with the requested id exists. -/
theorem C3_load_every_failure_is_notFound (avail : Bool) (s : DBState) (id : Int) :
    ((LoadSession avail s id).2 = none ∨
        (LoadSession avail s id).2 = some GoErr.errNotFound) ∧
      ((LoadSession avail s id).2 = none ↔
        avail = true ∧ ∃ r ∈ s.rows, r.id = id) := by
  cases avail with
  | false => simp [LoadSession]
  | true =>
    cases hf : s.rows.find? (fun r => r.id == id) with
    | none =>
      have hnone := List.find?_eq_none.mp hf
      simp only [LoadSession, if_pos, hf]
      constructor
      · simp
      · simp only [true_and]
        constructor
        · intro hcontra
          simp at hcontra
        · rintro ⟨r, hr, hrid⟩
          exact absurd (by simpa using hrid) (by simpa using hnone r hr)
    | some r =>
      have hmem := List.mem_of_find?_eq_some hf
      have hp := List.find?_some hf
      simp only [beq_iff_eq] at hp
      simp only [LoadSession, if_pos, hf]
      constructor
      · simp
      · simp only [true_and]
        constructor
        · intro _
          exact ⟨r, hmem, by simpa using hp⟩
        · intro _
          trivial

/-- Claim C10: whenever LoadSession returns an error, the session value it
returns alongside the error is exactly the zero-value Session. -/
theorem C10_load_error_returns_zero_session (avail : Bool) (s : DBState) (id : Int)
    (e : GoErr) (h : (LoadSession avail s id).2 = some e) :
    (LoadSession avail s id).1 = Session.zero := by
  cases avail with
  | false => simp [LoadSession]
  | true =>
    cases hf : s.rows.find? (fun r => r.id == id) with
    | none => simp [LoadSession, hf]
    | some r => simp [LoadSession, hf] at h

/-- Claim C10, witness: LoadSession against an unreachable backend errors and
hands back the zero session. -/
theorem C10_witness :
    (LoadSession false ⟨[], 1⟩ 0).2 = some GoErr.errNotFound ∧
      (LoadSession false ⟨[], 1⟩ 0).1 = Session.zero :=
  ⟨rfl, C10_load_error_returns_zero_session false ⟨[], 1⟩ 0 GoErr.errNotFound rfl⟩

end SessionStore

namespace SessionStore

/-- Helper: mapping a row-update over a list commutes with positional lookup. -/
theorem getD_map_row (f : Row → Row) :
    ∀ (l : List Row) (i : Nat), i < l.length → (l.map f).getD i dRow = f (l.getD i dRow) := by
  intro l
  induction l with
  | nil => intro i hi; simp at hi
  | cons x xs ih =>
    intro i hi
    cases i with
    | zero => simp
    | succ j =>
      simp only [List.map_cons, List.getD_cons_succ]
      exact ih j (by simpa using hi)

/-- Helper: mapping a function that fixes every element of a list is the
identity on that list. -/
theorem map_fixes_row (f : Row → Row) :
    ∀ (l : List Row), (∀ a ∈ l, f a = a) → l.map f = l := by
  intro l
  induction l with
  | nil => intro _; rfl
  | cons x xs ih =>
    intro h
    simp only [List.map_cons, h x (by simp)]
    rw [ih (fun a ha => h a (by simp [ha]))]

/-- Helper: looking up a fresh id in `l ++ [a]` yields the appended row when
no row of `l` carries that id. -/
theorem find?_append_fresh (l : List Row) (a : Row)
    (h : ∀ r ∈ l, (r.id == a.id) = false) :
    (l ++ [a]).find? (fun r => r.id == a.id) = some a := by
  induction l with
  | nil => simp
  | cons x xs ih =>
    have hx := h x (by simp)
    rw [List.cons_append, List.find?_cons_of_neg]
    · exact ih fun r hr => h r (by simp [hr])
    · simp [hx]

/-- Claim C4: after a successful SaveSession of a session whose ID was still
the zero value, LoadSession on the assigned id succeeds and returns the saved
session with its ID populated by the store-assigned identifier and every
other field unchanged. -/
theorem C4_save_then_load_roundtrip (s : DBState) (sess : Session)
    (hwf : WF s) (hid : sess.ID = 0) :
    (SaveSession true s sess).2.2 = none ∧
      LoadSession true (SaveSession true s sess).1 (SaveSession true s sess).2.1.ID =
        ({ sess with ID := (SaveSession true s sess).2.1.ID }, none) := by
  have hfresh : ∀ r ∈ s.rows,
      (r.id == (⟨s.nextId, sess.EncryptedCreds, sess.Expires, sess.EndOfLife⟩ : Row).id) =
        false := by
    intro r hr
    have := hwf r hr
    simp only [beq_eq_false_iff_ne, ne_eq]
    omega
  have hfind := find?_append_fresh s.rows
    ⟨s.nextId, sess.EncryptedCreds, sess.Expires, sess.EndOfLife⟩ hfresh
  refine ⟨rfl, ?_⟩
  show LoadSession true
      ⟨s.rows ++ [⟨s.nextId, sess.EncryptedCreds, sess.Expires, sess.EndOfLife⟩],
        s.nextId + 1⟩ s.nextId = _
  simp only [LoadSession, if_pos]
  rw [show ((⟨s.rows ++ [⟨s.nextId, sess.EncryptedCreds, sess.Expires, sess.EndOfLife⟩],
      s.nextId + 1⟩ : DBState)).rows.find? (fun r => r.id == s.nextId) = _ from hfind]
  simp [SaveSession]

/-- Claim C4, witness: saving a fresh session into the empty store and
loading it back at the assigned id. -/
theorem C4_witness :
    WF ⟨[], 1⟩ ∧ (⟨0, [1, 2], 50, 100⟩ : Session).ID = 0 ∧
      LoadSession true (SaveSession true ⟨[], 1⟩ ⟨0, [1, 2], 50, 100⟩).1
          (SaveSession true ⟨[], 1⟩ ⟨0, [1, 2], 50, 100⟩).2.1.ID =
        ({ (⟨0, [1, 2], 50, 100⟩ : Session) with
            ID := (SaveSession true ⟨[], 1⟩ ⟨0, [1, 2], 50, 100⟩).2.1.ID }, none) :=
  ⟨by intro r hr; simp at hr, rfl,
    (C4_save_then_load_roundtrip ⟨[], 1⟩ ⟨0, [1, 2], 50, 100⟩
      (by intro r hr; simp at hr) rfl).2⟩

end SessionStore

namespace SessionStore

/-- Claim C5: ExtendSession on a reachable backend returns no error, keeps
the SERIAL counter and the number of rows, sets the expiration of the row
whose id matches to `now + lifespan` - `now` being the clock reading at the
moment the operation executes - and leaves id, encryptedcreds and endoflife
of every row, and the expiration of every non-matching row, unchanged. -/
theorem C5_extend_sets_expiration_only (s : DBState) (now id d : Int) (i : Nat)
    (h : i < s.rows.length) :
    (ExtendSession true now s id d).2 = none ∧
      (ExtendSession true now s id d).1.nextId = s.nextId ∧
      (ExtendSession true now s id d).1.rows.length = s.rows.length ∧
      ((ExtendSession true now s id d).1.rows.getD i dRow).id = (s.rows.getD i dRow).id ∧
      ((ExtendSession true now s id d).1.rows.getD i dRow).encryptedcreds =
        (s.rows.getD i dRow).encryptedcreds ∧
      ((ExtendSession true now s id d).1.rows.getD i dRow).endoflife =
        (s.rows.getD i dRow).endoflife ∧
      ((ExtendSession true now s id d).1.rows.getD i dRow).expiration =
        (if (s.rows.getD i dRow).id = id then now + d
          else (s.rows.getD i dRow).expiration) := by
  have hrows : (ExtendSession true now s id d).1.rows =
      s.rows.map (fun r => if r.id == id then { r with expiration := now + d } else r) := rfl
  have hget := getD_map_row
    (fun r => if r.id == id then { r with expiration := now + d } else r) s.rows i h
  refine ⟨rfl, rfl, ?_, ?_, ?_, ?_, ?_⟩ <;> rw [hrows]
  · simp
  all_goals rw [hget]
  all_goals by_cases hc : (s.rows.getD i dRow).id = id
  all_goals simp_all

/-- Claim C5, witness: extending the only row of a one-row store at time 10
by 5 keeps its endoflife. -/
theorem C5_witness :
    0 < (⟨[⟨1, [3], 50, 100⟩], 2⟩ : DBState).rows.length ∧
      ((ExtendSession true 10 ⟨[⟨1, [3], 50, 100⟩], 2⟩ 1 5).1.rows.getD 0 dRow).endoflife =
        ((⟨[⟨1, [3], 50, 100⟩], 2⟩ : DBState).rows.getD 0 dRow).endoflife :=
  ⟨by decide,
    (C5_extend_sets_expiration_only ⟨[⟨1, [3], 50, 100⟩], 2⟩ 10 1 5 0
      (by decide)).2.2.2.2.2.1⟩

/-- Claim C6, counterexample: ExtendSession can DECREASE `expiresAt`: a row
with expiration 100 is reset to 1 by an Extend executed at time 0 with
lifespan 1, so `expiresAt` does not move only forward. -/
theorem C6_counterexample :
    ((ExtendSession true 0 ⟨[⟨1, [], 100, 200⟩], 2⟩ 1 1).1.rows.getD 0 dRow).expiration <
      ((⟨[⟨1, [], 100, 200⟩], 2⟩ : DBState).rows.getD 0 dRow).expiration := by
  decide

/-- Claim C6, amended: no operation of the subsystem ever changes a stored
session's endoflife after creation: Extend rewrites only the expiration
field, Logout and the sweep only discard whole rows (every surviving row is
one of the original rows, unchanged), and Save only appends a fresh row
carrying the saved session's own EndOfLife. The expiration field, however, is
set by Extend to `now + lifespan` unconditionally, which can move it
backward as well as forward. -/
theorem C6_endoflife_never_mutated :
    (∀ (s : DBState) (now id d : Int) (i : Nat), i < s.rows.length →
        ((ExtendSession true now s id d).1.rows.getD i dRow).endoflife =
            (s.rows.getD i dRow).endoflife ∧
          ((ExtendSession true now s id d).1.rows.getD i dRow).id =
            (s.rows.getD i dRow).id) ∧
      (∀ (avail : Bool) (s : DBState) (id : Int) (r : Row),
        r ∈ (LogoutSession avail s id).1.rows → r ∈ s.rows) ∧
      (∀ (e ra : Bool) (now : Int) (s : DBState) (r : Row),
        r ∈ (ClearExpiredSessions e ra now s).1.rows → r ∈ s.rows) ∧
      (∀ (s : DBState) (sess : Session),
        (SaveSession true s sess).1.rows =
          s.rows ++ [⟨s.nextId, sess.EncryptedCreds, sess.Expires, sess.EndOfLife⟩]) := by
  refine ⟨?_, ?_, ?_, fun s sess => rfl⟩
  · intro s now id d i h
    have hget := getD_map_row
      (fun r => if r.id == id then { r with expiration := now + d } else r) s.rows i h
    have hrows : (ExtendSession true now s id d).1.rows =
        s.rows.map (fun r => if r.id == id then { r with expiration := now + d } else r) := rfl
    rw [hrows, hget]
    by_cases hc : (s.rows.getD i dRow).id = id <;> simp_all
  · intro avail s id r hr
    cases avail with
    | false => exact hr
    | true => exact (List.mem_filter.mp hr).1
  · intro e ra now s r hr
    cases e with
    | true => exact hr
    | false =>
      cases ra with
      | true => exact (List.mem_filter.mp hr).1
      | false => exact (List.mem_filter.mp hr).1

/-- Claim C6, witness: a concrete Extend keeps the endoflife of the only row
of a one-row store. -/
theorem C6_witness :
    0 < (⟨[⟨1, [], 100, 200⟩], 2⟩ : DBState).rows.length ∧
      ((ExtendSession true 0 ⟨[⟨1, [], 100, 200⟩], 2⟩ 1 1).1.rows.getD 0 dRow).endoflife =
        ((⟨[⟨1, [], 100, 200⟩], 2⟩ : DBState).rows.getD 0 dRow).endoflife :=
  ⟨by decide,
    (C6_endoflife_never_mutated.1 ⟨[⟨1, [], 100, 200⟩], 2⟩ 0 1 1 0 (by decide)).1⟩

end SessionStore

namespace SessionStore

/-- Claim C7: on a reachable backend, LogoutSession and ExtendSession on an
identifier with no matching row return no error and leave the store exactly
as it was; moreover LogoutSession is idempotent: for ANY store, two
consecutive calls on the same identifier both return no error and the second
leaves the state of the first unchanged. -/
theorem C7_terminate_extend_missing_noop (s : DBState) (id now d : Int)
    (h : ∀ r ∈ s.rows, r.id ≠ id) :
    LogoutSession true s id = (s, none) ∧
      ExtendSession true now s id d = (s, none) ∧
      (∀ s2 : DBState, (LogoutSession true s2 id).2 = none ∧
        LogoutSession true (LogoutSession true s2 id).1 id =
          ((LogoutSession true s2 id).1, none)) := by
  have hfil : s.rows.filter (fun r => !(r.id == id)) = s.rows :=
    List.filter_eq_self.mpr (fun r hr => by simp [h r hr])
  refine ⟨?_, ?_, ?_⟩
  · show ({ s with rows := s.rows.filter (fun r => !(r.id == id)) }, none) = (s, none)
    rw [hfil]
  · show ({ s with rows := s.rows.map (fun r =>
        if r.id == id then { r with expiration := now + d } else r) }, none) = (s, none)
    rw [map_fixes_row _ s.rows (fun r hr => by simp [h r hr])]
  · intro s2
    have hidem : (s2.rows.filter (fun r : Row => !(r.id == id))).filter
        (fun r : Row => !(r.id == id)) = s2.rows.filter (fun r : Row => !(r.id == id)) :=
      List.filter_eq_self.mpr (fun r hr => (List.mem_filter.mp hr).2)
    exact ⟨rfl, by simp [LogoutSession, hidem]⟩

/-- Claim C7, witness: logging out and extending the absent identifier 7 on a
one-row store whose only row has id 2. -/
theorem C7_witness :
    (∀ r ∈ (⟨[⟨2, [], 5, 9⟩], 3⟩ : DBState).rows, r.id ≠ 7) ∧
      LogoutSession true ⟨[⟨2, [], 5, 9⟩], 3⟩ 7 = (⟨[⟨2, [], 5, 9⟩], 3⟩, none) :=
  ⟨by decide, (C7_terminate_extend_missing_noop ⟨[⟨2, [], 5, 9⟩], 3⟩ 7 0 0 (by decide)).1⟩

/-- Helper: one reaper iteration always advances the clock by exactly one
sweep interval and appends exactly one log event, whatever the sweep's
outcome. -/
theorem reaperStep_time_logs (failSched : Nat → Bool × Bool) (k : Nat) (st : ReaperState) :
    (reaperStep failSched k st).time = st.time + sweepInterval ∧
      (reaperStep failSched k st).logs.length = st.logs.length + 1 := by
  simp only [reaperStep]
  split <;> simp

/-- Claim C8: for every failure schedule, the reaper loop performs exactly
one sweep per iteration forever: after `n` iterations the clock has advanced
by `n` fixed 10-minute intervals and exactly `n` log events (one per cycle)
have been emitted; and whenever a cycle's sweep returns an error (the
RowsAffected failure, the only error the sweep can surface), that cycle logs
the ERROR event and the loop still proceeds - the count and clock facts hold
for all later `n` regardless. -/
theorem C8_reaper_sweeps_every_cycle (failSched : Nat → Bool × Bool)
    (st : ReaperState) (n : Nat) :
    (reaperRun failSched st n).time = st.time + n * sweepInterval ∧
      (reaperRun failSched st n).logs.length = st.logs.length + n ∧
      (∀ k : Nat, (failSched k).1 = false → (failSched k).2 = true →
        (reaperRun failSched st (k + 1)).logs =
          (reaperRun failSched st k).logs ++ [LogEvent.sweepError]) := by
  refine ⟨?_, ?_, ?_⟩
  · induction n with
    | zero => simp [reaperRun]
    | succ m ih =>
      have hs := reaperStep_time_logs failSched m (reaperRun failSched st m)
      simp only [reaperRun]
      rw [hs.1, ih]
      push_cast
      ring
  · induction n with
    | zero => simp [reaperRun]
    | succ m ih =>
      have hs := reaperStep_time_logs failSched m (reaperRun failSched st m)
      simp only [reaperRun]
      rw [hs.2, ih]
      omega
  · intro k h1 h2
    simp only [reaperRun, reaperStep, h1, h2, ClearExpiredSessions]
    simp

/-- Claim C8, witness: under the schedule that makes every RowsAffected call
fail, the first cycle logs the ERROR event and the loop proceeds. -/
theorem C8_witness :
    ((fun _ : Nat => (false, true)) 0).1 = false ∧
      (reaperRun (fun _ => (false, true)) ⟨0, ⟨[], 1⟩, []⟩ 1).logs =
        (reaperRun (fun _ => (false, true)) ⟨0, ⟨[], 1⟩, []⟩ 0).logs ++
          [LogEvent.sweepError] :=
  ⟨rfl, (C8_reaper_sweeps_every_cycle (fun _ => (false, true)) ⟨0, ⟨[], 1⟩, []⟩ 1).2.2
    0 rfl rfl⟩

/-- Claim C9: SaveSession always inserts a brand-new row - even when the
input already carries a non-zero ID - overwriting the input's ID with the
fresh SERIAL value; it never touches existing rows, so saving twice yields
two distinct stored rows with distinct ids. -/
theorem C9_save_always_inserts_fresh_row (s : DBState) (a b : Session)
    (h : a.ID ≠ 0) :
    (SaveSession true s a).2.1.ID = s.nextId ∧
      (SaveSession true s a).1.rows =
        s.rows ++ [⟨s.nextId, a.EncryptedCreds, a.Expires, a.EndOfLife⟩] ∧
      (SaveSession true (SaveSession true s a).1 b).1.rows =
        s.rows ++ [⟨s.nextId, a.EncryptedCreds, a.Expires, a.EndOfLife⟩,
          ⟨s.nextId + 1, b.EncryptedCreds, b.Expires, b.EndOfLife⟩] ∧
      (SaveSession true (SaveSession true s a).1 b).2.1.ID = s.nextId + 1 ∧
      (SaveSession true s a).2.1.ID ≠ (SaveSession true (SaveSession true s a).1 b).2.1.ID := by
  refine ⟨rfl, rfl, ?_, rfl, ?_⟩
  · simp [SaveSession]
  · simp only [SaveSession, if_pos]
    omega

/-- Claim C9, witness: saving a session that already carries ID 5 into the
empty store still assigns the fresh SERIAL id 1. -/
theorem C9_witness :
    ((⟨5, [7], 50, 100⟩ : Session).ID ≠ 0) ∧
      (SaveSession true ⟨[], 1⟩ ⟨5, [7], 50, 100⟩).2.1.ID = (1 : Int) :=
  ⟨by decide,
    (C9_save_always_inserts_fresh_row ⟨[], 1⟩ ⟨5, [7], 50, 100⟩ ⟨5, [7], 50, 100⟩
      (by decide)).1⟩

end SessionStore
